import Mathlib

/-!
Shallow embedding of the Statement Dispatch Engine (`src/app.py`) and proofs
about its aging calculator, invoice aggregator, job queue and job worker.

Dates are modelled as proleptic-Gregorian `(year, month, day)` triples with
explicit day arithmetic (`timedelta(days = n)` becomes `addDays`/`subDays`,
`date.weekday()` becomes `weekday`, Monday = 0, exactly as in Python).
Monetary floats are modelled as rationals; SQL tables become Lean lists.
-/

namespace StatementOps

/-- Calendar date, mirroring Python's `datetime.date` (year ≥ 1 for real
Python dates; the arithmetic below also tolerates year 0). -/
structure Date where
  year : Nat
  month : Nat
  day : Nat
deriving DecidableEq, Repr

/-- Gregorian leap-year rule, as used by Python's `calendar`/`datetime`. -/
def isLeap (y : Nat) : Bool :=
  (y % 4 == 0 && y % 100 != 0) || y % 400 == 0

/-- Number of days in month `m` of year `y`. -/
def monthLength (y : Nat) (m : Nat) : Nat :=
  if m = 2 then (if isLeap y then 29 else 28)
  else if m = 4 ∨ m = 6 ∨ m = 9 ∨ m = 11 then 30
  else 31

/-- A structurally well-formed date. -/
def Date.Valid (d : Date) : Prop :=
  1 ≤ d.month ∧ d.month ≤ 12 ∧ 1 ≤ d.day ∧ d.day ≤ monthLength d.year d.month

instance (d : Date) : Decidable d.Valid := by
  unfold Date.Valid; infer_instance

/-- Successor date (one day later). -/
def nextDay (d : Date) : Date :=
  if d.day < monthLength d.year d.month then ⟨d.year, d.month, d.day + 1⟩
  else if d.month < 12 then ⟨d.year, d.month + 1, 1⟩
  else ⟨d.year + 1, 1, 1⟩

/-- Predecessor date (one day earlier). -/
def prevDay (d : Date) : Date :=
  if 1 < d.day then ⟨d.year, d.month, d.day - 1⟩
  else if 1 < d.month then ⟨d.year, d.month - 1, monthLength d.year (d.month - 1)⟩
  else ⟨d.year - 1, 12, 31⟩

/-- Python's `d + timedelta(days = n)` for `n ≥ 0`. -/
def addDays (d : Date) : Nat → Date
  | 0 => d
  | n + 1 => nextDay (addDays d n)

/-- Python's `d - timedelta(days = n)` for `n ≥ 0`. -/
def subDays (d : Date) : Nat → Date
  | 0 => d
  | n + 1 => prevDay (subDays d n)

/-- Total number of days in months `1..m` of year `y`. -/
def daysUpTo (y : Nat) : Nat → Nat
  | 0 => 0
  | m + 1 => daysUpTo y m + monthLength y (m + 1)

/-- Number of days in year `y`. -/
def daysInYear (y : Nat) : Nat := daysUpTo y 12

/-- Number of days in the years `0..y-1`. -/
def daysBeforeYear : Nat → Nat
  | 0 => 0
  | y + 1 => daysBeforeYear y + daysInYear y

/-- Day ordinal of a date (day count from 0000-01-01); date differences and
comparisons in the source go through this, as Python's `date.toordinal`. -/
def toOrd (d : Date) : Nat :=
  daysBeforeYear d.year + daysUpTo d.year (d.month - 1) + (d.day - 1)

/-- Python's `date.weekday()`: Monday = 0, ..., Sunday = 6. -/
def weekday (d : Date) : Nat := (toOrd d + 5) % 7

/-- Embedding of `TERM_DAYS` (src/app.py lines 41-49): fixed day counts per
terms code, including the `bill_to_bill → 1` entry present in the source. -/
def TERM_DAYS : List (String × Nat) :=
  [("net_7", 7), ("net_15", 15), ("net_20", 20), ("net_30", 30), ("net_45", 45),
   ("cod", 1), ("bill_to_bill", 1)]

/-- Embedding of `compute_due_date` (src/app.py lines 728-738). -/
def compute_due_date (ship_date : Date) (terms_code : String) : Date :=
  match TERM_DAYS.lookup terms_code with
  | some n => addDays ship_date n
  | none =>
    if terms_code = "week_to_week" then
      addDays (subDays ship_date (weekday ship_date)) 4
    else if terms_code = "month_to_month" then
      let first_of_month : Date := ⟨ship_date.year, ship_date.month, 1⟩
      let next_month := addDays first_of_month 32
      ⟨next_month.year, next_month.month, 1⟩
    else
      addDays ship_date 30

/-- Embedding of `compute_status` (src/app.py lines 741-746); date comparison
and `(due_date - today).days` are expressed through day ordinals. -/
def compute_status (today : Date) (due_date : Date) : String :=
  if toOrd due_date < toOrd today then "Overdue"
  else if 0 ≤ ((toOrd due_date : Int) - (toOrd today : Int)) ∧
            ((toOrd due_date : Int) - (toOrd today : Int)) ≤ 7 then "Due This Week"
  else "Unpaid"

/-- First day of the month after `d`'s month (the spec's wording for the
`month_to_month` due date). -/
def firstOfNextMonth (d : Date) : Date :=
  if d.month < 12 then ⟨d.year, d.month + 1, 1⟩ else ⟨d.year + 1, 1, 1⟩

theorem monthLength_ge (y m : Nat) : 28 ≤ monthLength y m := by
  unfold monthLength
  split
  · split <;> omega
  · split <;> omega

theorem monthLength_le (y m : Nat) : monthLength y m ≤ 31 := by
  unfold monthLength
  split
  · split <;> omega
  · split <;> omega

theorem daysUpTo_succ (y m : Nat) : daysUpTo y (m + 1) = daysUpTo y m + monthLength y (m + 1) := rfl

theorem toOrd_mk (y m day : Nat) :
    toOrd ⟨y, m, day⟩ = daysBeforeYear y + daysUpTo y (m - 1) + (day - 1) := rfl

theorem valid_mk (y m day : Nat) :
    (Date.mk y m day).Valid ↔ 1 ≤ m ∧ m ≤ 12 ∧ 1 ≤ day ∧ day ≤ monthLength y m := Iff.rfl

theorem toOrd_nextDay (d : Date) (h : d.Valid) : toOrd (nextDay d) = toOrd d + 1 := by
  obtain ⟨y, m, day⟩ := d
  rw [valid_mk] at h
  obtain ⟨hm1, hm2, hd1, hd2⟩ := h
  unfold nextDay
  dsimp only
  split
  · rename_i hlt
    rw [toOrd_mk, toOrd_mk]
    omega
  · rename_i hlt
    split
    · rename_i hm
      obtain ⟨k, rfl⟩ : ∃ k, m = k + 1 := ⟨m - 1, by omega⟩
      rw [toOrd_mk, toOrd_mk]
      have hstep := daysUpTo_succ y k
      have hLpos := monthLength_ge y (k + 1)
      simp only [Nat.add_sub_cancel]
      omega
    · rename_i hm
      have hm12 : m = 12 := by omega
      subst hm12
      rw [toOrd_mk, toOrd_mk]
      have hL : monthLength y 12 = 31 := rfl
      have h1 : daysBeforeYear (y + 1) = daysBeforeYear y + daysInYear y := rfl
      have h2 : daysInYear y = daysUpTo y 11 + monthLength y 12 := rfl
      have h3 : daysUpTo (y + 1) (1 - 1) = 0 := rfl
      have h4 : daysUpTo y (12 - 1) = daysUpTo y 11 := rfl
      omega

theorem valid_nextDay (d : Date) (h : d.Valid) : (nextDay d).Valid := by
  obtain ⟨y, m, day⟩ := d
  rw [valid_mk] at h
  obtain ⟨hm1, hm2, hd1, hd2⟩ := h
  unfold nextDay
  dsimp only
  split
  · rename_i hlt
    exact (valid_mk ..).mpr ⟨hm1, hm2, by omega, by omega⟩
  · rename_i hlt
    split
    · rename_i hm
      have hL := monthLength_ge y (m + 1)
      exact (valid_mk ..).mpr ⟨by omega, by omega, by omega, by omega⟩
    · rename_i hm
      have hL := monthLength_ge (y + 1) 1
      exact (valid_mk ..).mpr ⟨by omega, by omega, by omega, by omega⟩

theorem addDays_valid_toOrd (d : Date) (h : d.Valid) (n : Nat) :
    (addDays d n).Valid ∧ toOrd (addDays d n) = toOrd d + n := by
  induction n with
  | zero => exact ⟨h, rfl⟩
  | succ n ih =>
    refine ⟨valid_nextDay _ ih.1, ?_⟩
    show toOrd (nextDay (addDays d n)) = toOrd d + (n + 1)
    rw [toOrd_nextDay _ ih.1, ih.2]
    omega

theorem prevDay_spec (d : Date) (h : d.Valid) (h0 : 0 < toOrd d) :
    (prevDay d).Valid ∧ toOrd (prevDay d) = toOrd d - 1 ∧ nextDay (prevDay d) = d := by
  obtain ⟨y, m, day⟩ := d
  rw [valid_mk] at h
  obtain ⟨hm1, hm2, hd1, hd2⟩ := h
  rw [toOrd_mk] at h0
  unfold prevDay
  dsimp only
  split
  · rename_i hdgt
    refine ⟨(valid_mk ..).mpr ⟨hm1, hm2, by omega, by omega⟩, ?_, ?_⟩
    · rw [toOrd_mk, toOrd_mk]; omega
    · unfold nextDay
      dsimp only
      rw [if_pos (show day - 1 < monthLength y m by omega)]
      simp only [Date.mk.injEq, true_and]
      omega
  · rename_i hdle
    have hday : day = 1 := by omega
    subst hday
    split
    · rename_i hmgt
      obtain ⟨k, rfl⟩ : ∃ k, m = k + 1 := ⟨m - 1, by omega⟩
      simp only [Nat.add_sub_cancel]
      have hk1 : 1 ≤ k := by omega
      have hLpos := monthLength_ge y k
      refine ⟨(valid_mk ..).mpr ⟨by omega, by omega, by omega, le_refl _⟩, ?_, ?_⟩
      · rw [toOrd_mk, toOrd_mk]
        simp only [Nat.add_sub_cancel]
        obtain ⟨j, rfl⟩ : ∃ j, k = j + 1 := ⟨k - 1, by omega⟩
        have hstep := daysUpTo_succ y j
        simp only [Nat.add_sub_cancel]
        omega
      · unfold nextDay
        dsimp only
        rw [if_neg (show ¬ monthLength y k < monthLength y k by omega)]
        rw [if_pos (show k < 12 by omega)]
    · rename_i hmle
      have hmonth : m = 1 := by omega
      subst hmonth
      have hy : 1 ≤ y := by
        rcases Nat.eq_zero_or_pos y with h | h
        · subst h
          have hz : daysBeforeYear 0 + daysUpTo 0 (1 - 1) + (1 - 1) = 0 := rfl
          omega
        · exact h
      obtain ⟨z, rfl⟩ : ∃ z, y = z + 1 := ⟨y - 1, by omega⟩
      simp only [Nat.add_sub_cancel]
      have hL12 : monthLength z 12 = 31 := rfl
      refine ⟨(valid_mk ..).mpr ⟨by omega, by omega, by omega, by omega⟩, ?_, ?_⟩
      · rw [toOrd_mk, toOrd_mk]
        have h1 : daysBeforeYear (z + 1) = daysBeforeYear z + daysInYear z := rfl
        have h2 : daysInYear z = daysUpTo z 11 + monthLength z 12 := rfl
        have h3 : daysUpTo (z + 1) (1 - 1) = 0 := rfl
        have h4 : daysUpTo z (12 - 1) = daysUpTo z 11 := rfl
        omega
      · unfold nextDay
        dsimp only
        rw [if_neg (show ¬ (31 : Nat) < monthLength z 12 by omega)]
        rw [if_neg (show ¬ (12 : Nat) < 12 by omega)]

theorem addDays_succ_comm (d : Date) (n : Nat) : addDays d (n + 1) = addDays (nextDay d) n := by
  induction n with
  | zero => rfl
  | succ n ih =>
    show nextDay (addDays d (n + 1)) = addDays (nextDay d) (n + 1)
    rw [ih]
    rfl

theorem subDays_spec (d : Date) (h : d.Valid) (n : Nat) (hn : n ≤ toOrd d) :
    (subDays d n).Valid ∧ toOrd (subDays d n) = toOrd d - n ∧ addDays (subDays d n) n = d := by
  induction n with
  | zero =>
    refine ⟨h, ?_, rfl⟩
    show toOrd d = toOrd d - 0
    omega
  | succ n ih =>
    obtain ⟨hv, ho, hr⟩ := ih (by omega)
    have h0 : 0 < toOrd (subDays d n) := by omega
    obtain ⟨pv, po, pr⟩ := prevDay_spec _ hv h0
    refine ⟨pv, ?_, ?_⟩
    · show toOrd (prevDay (subDays d n)) = toOrd d - (n + 1)
      omega
    · show addDays (prevDay (subDays d n)) (n + 1) = d
      rw [addDays_succ_comm, pr, hr]

theorem addDays_add (d : Date) (a b : Nat) : addDays d (a + b) = addDays (addDays d a) b := by
  induction b with
  | zero => rfl
  | succ b ih =>
    show nextDay (addDays d (a + b)) = nextDay (addDays (addDays d a) b)
    rw [ih]

theorem addDays_within (d : Date) (_h : d.Valid) (n : Nat)
    (hn : d.day + n ≤ monthLength d.year d.month) :
    addDays d n = ⟨d.year, d.month, d.day + n⟩ := by
  induction n with
  | zero => rfl
  | succ n ih =>
    show nextDay (addDays d n) = _
    rw [ih (by omega)]
    unfold nextDay
    dsimp only
    rw [if_pos (show d.day + n < monthLength d.year d.month by omega)]
    simp only [Date.mk.injEq, true_and]
    omega

theorem daysBeforeYear_ge (y : Nat) (hy : 1 ≤ y) : 366 ≤ daysBeforeYear y := by
  induction y with
  | zero => omega
  | succ y ih =>
    have h0 : daysBeforeYear (y + 1) = daysBeforeYear y + daysInYear y := rfl
    rcases Nat.eq_zero_or_pos y with h | h
    · subst h
      have h366 : daysInYear 0 = 366 := rfl
      omega
    · have := ih h; omega

theorem toOrd_ge_366 (d : Date) (hy : 1 ≤ d.year) : 366 ≤ toOrd d := by
  have := daysBeforeYear_ge d.year hy
  obtain ⟨y, m, day⟩ := d
  rw [toOrd_mk]
  simp only at this
  omega

theorem weekday_lt_7 (d : Date) : weekday d < 7 := Nat.mod_lt _ (by omega)

theorem weekday_subDays_weekday (d : Date) (h : d.Valid) (hy : 1 ≤ d.year) :
    weekday (subDays d (weekday d)) = 0 := by
  have h366 := toOrd_ge_366 d hy
  have hw : weekday d < 7 := weekday_lt_7 d
  obtain ⟨_, ho, _⟩ := subDays_spec d h (weekday d) (by unfold weekday at *; omega)
  unfold weekday at *
  rw [ho]
  omega

theorem compute_due_date_lookup_some (d : Date) (code : String) (n : Nat)
    (h : TERM_DAYS.lookup code = some n) : compute_due_date d code = addDays d n := by
  unfold compute_due_date
  rw [h]

theorem compute_due_date_wk (d : Date) :
    compute_due_date d "week_to_week" = addDays (subDays d (weekday d)) 4 := by
  unfold compute_due_date
  rw [show TERM_DAYS.lookup "week_to_week" = none from by decide]
  rw [if_pos rfl]

theorem compute_due_date_mtm (d : Date) :
    compute_due_date d "month_to_month" =
      ⟨(addDays ⟨d.year, d.month, 1⟩ 32).year, (addDays ⟨d.year, d.month, 1⟩ 32).month, 1⟩ := by
  unfold compute_due_date
  rw [show TERM_DAYS.lookup "month_to_month" = none from by decide]
  rw [if_neg (by decide), if_pos rfl]

theorem addDays32_month (d : Date) (h : d.Valid) :
    (addDays ⟨d.year, d.month, 1⟩ 32).year = (firstOfNextMonth d).year ∧
    (addDays ⟨d.year, d.month, 1⟩ 32).month = (firstOfNextMonth d).month := by
  obtain ⟨y, m, day⟩ := d
  rw [valid_mk] at h
  obtain ⟨hm1, hm2, hd1, hd2⟩ := h
  dsimp only
  have hge := monthLength_ge y m
  have hle := monthLength_le y m
  have hv1 : (Date.mk y m 1).Valid := (valid_mk ..).mpr ⟨hm1, hm2, le_refl 1, by omega⟩
  rw [show (32 : Nat) = (monthLength y m - 1) + (33 - monthLength y m) from by omega, addDays_add]
  have hfirst : addDays ⟨y, m, 1⟩ (monthLength y m - 1) = ⟨y, m, monthLength y m⟩ := by
    rw [addDays_within _ hv1 _ (by dsimp only; omega)]
    simp only [Date.mk.injEq, true_and]
    omega
  rw [hfirst, show 33 - monthLength y m = (32 - monthLength y m) + 1 from by omega,
     addDays_succ_comm]
  by_cases hm12 : m < 12
  · have hnext : nextDay ⟨y, m, monthLength y m⟩ = ⟨y, m + 1, 1⟩ := by
      unfold nextDay
      dsimp only
      rw [if_neg (by omega), if_pos hm12]
    have hge' := monthLength_ge y (m + 1)
    have hv2 : (Date.mk y (m + 1) 1).Valid :=
      (valid_mk ..).mpr ⟨by omega, by omega, le_refl 1, by omega⟩
    rw [hnext, addDays_within _ hv2 _ (by dsimp only; omega)]
    unfold firstOfNextMonth
    rw [if_pos (by dsimp only; omega)]
    exact ⟨rfl, rfl⟩
  · have hm' : m = 12 := by omega
    subst hm'
    have hL : monthLength y 12 = 31 := rfl
    have hnext : nextDay ⟨y, 12, monthLength y 12⟩ = ⟨y + 1, 1, 1⟩ := by
      unfold nextDay
      dsimp only
      rw [if_neg (by omega), if_neg (by omega)]
    have hge' := monthLength_ge (y + 1) 1
    have hv2 : (Date.mk (y + 1) 1 1).Valid :=
      (valid_mk ..).mpr ⟨le_refl 1, by omega, le_refl 1, by omega⟩
    rw [hnext, addDays_within _ hv2 _ (by dsimp only; omega)]
    unfold firstOfNextMonth
    rw [if_neg (by dsimp only; omega)]
    exact ⟨rfl, rfl⟩

/-- C7: `compute_due_date` returns ship date + N days for each fixed-day terms
code per the `TERM_DAYS` table (net_7→7, net_15→15, net_20→20, net_30→30,
net_45→45, cod→1); for `week_to_week` it returns the Monday of the ship week
(weekday 0, same week as the ship date) plus 4 days; for `month_to_month` it
returns the first day of the month following the ship month. -/
theorem compute_due_date_terms_table (d : Date) (h : d.Valid) (hy : 1 ≤ d.year) :
    (compute_due_date d "net_7" = addDays d 7 ∧
     compute_due_date d "net_15" = addDays d 15 ∧
     compute_due_date d "net_20" = addDays d 20 ∧
     compute_due_date d "net_30" = addDays d 30 ∧
     compute_due_date d "net_45" = addDays d 45 ∧
     compute_due_date d "cod" = addDays d 1) ∧
    (compute_due_date d "week_to_week" = addDays (subDays d (weekday d)) 4 ∧
     weekday (subDays d (weekday d)) = 0 ∧
     addDays (subDays d (weekday d)) (weekday d) = d) ∧
    compute_due_date d "month_to_month" = firstOfNextMonth d := by
  refine ⟨⟨compute_due_date_lookup_some d _ _ (by decide),
          compute_due_date_lookup_some d _ _ (by decide),
          compute_due_date_lookup_some d _ _ (by decide),
          compute_due_date_lookup_some d _ _ (by decide),
          compute_due_date_lookup_some d _ _ (by decide),
          compute_due_date_lookup_some d _ _ (by decide)⟩,
         ⟨compute_due_date_wk d, ?_, ?_⟩, ?_⟩
  · exact weekday_subDays_weekday d h hy
  · have h366 := toOrd_ge_366 d hy
    have hw := weekday_lt_7 d
    exact (subDays_spec d h (weekday d) (by omega)).2.2
  · rw [compute_due_date_mtm]
    obtain ⟨hY, hM⟩ := addDays32_month d h
    rw [hY, hM]
    unfold firstOfNextMonth
    split <;> rfl

/-- Witness for C7 at the concrete valid date 2024-05-15. -/
theorem compute_due_date_terms_table_witness :
    (Date.mk 2024 5 15).Valid ∧ 1 ≤ (Date.mk 2024 5 15).year ∧
    compute_due_date ⟨2024, 5, 15⟩ "month_to_month" = firstOfNextMonth ⟨2024, 5, 15⟩ :=
  ⟨by decide, by decide,
    (compute_due_date_terms_table ⟨2024, 5, 15⟩ (by decide) (by decide)).2.2⟩

/-- C8: `compute_status` returns "Overdue" iff today is strictly after the due
date; otherwise "Due This Week" iff the due date is within 7 days from today;
otherwise "Unpaid". It is a total function of the two dates. -/
theorem compute_status_spec (today due : Date) :
    (compute_status today due = "Overdue" ↔ toOrd due < toOrd today) ∧
    (compute_status today due = "Due This Week" ↔
       toOrd today ≤ toOrd due ∧ (toOrd due : Int) - (toOrd today : Int) ≤ 7) ∧
    (compute_status today due = "Unpaid" ↔
       toOrd today ≤ toOrd due ∧ 7 < (toOrd due : Int) - (toOrd today : Int)) := by
  unfold compute_status
  by_cases h1 : toOrd due < toOrd today
  · rw [if_pos h1]
    refine ⟨by simp [h1], ?_, ?_⟩
    · constructor
      · intro h; exact absurd h (by decide)
      · intro h; omega
    · constructor
      · intro h; exact absurd h (by decide)
      · intro h; omega
  · rw [if_neg h1]
    by_cases h2 : 0 ≤ ((toOrd due : Int) - (toOrd today : Int)) ∧
        ((toOrd due : Int) - (toOrd today : Int)) ≤ 7
    · rw [if_pos h2]
      refine ⟨?_, ?_, ?_⟩
      · constructor
        · intro h; exact absurd h (by decide)
        · intro h; omega
      · simp only [iff_true_intro rfl, true_iff]
        omega
      · constructor
        · intro h; exact absurd h (by decide)
        · intro h; omega
    · rw [if_neg h2]
      refine ⟨?_, ?_, ?_⟩
      · constructor
        · intro h; exact absurd h (by decide)
        · intro h; omega
      · constructor
        · intro h; exact absurd h (by decide)
        · intro h; omega
      · simp only [iff_true_intro rfl, true_iff]
        omega

/-- C10: `compute_due_date` is total over arbitrary terms-code strings: any
code outside the recognized set falls through to ship date + 30 days, and
since `bill_to_bill` is in `TERM_DAYS` with N = 1, it yields ship date + 1
day rather than a chained due date. -/
theorem compute_due_date_default_btb (d : Date) (code : String)
    (h : code ∉ ["net_7", "net_15", "net_20", "net_30", "net_45", "cod", "bill_to_bill",
                 "week_to_week", "month_to_month"]) :
    compute_due_date d code = addDays d 30 ∧
    compute_due_date d "bill_to_bill" = addDays d 1 := by
  refine ⟨?_, compute_due_date_lookup_some d _ _ (by decide)⟩
  simp only [List.mem_cons, List.not_mem_nil, or_false, not_or] at h
  obtain ⟨h1, h2, h3, h4, h5, h6, h7, h8, h9⟩ := h
  have e1 : (code == "net_7") = false := by simp [h1]
  have e2 : (code == "net_15") = false := by simp [h2]
  have e3 : (code == "net_20") = false := by simp [h3]
  have e4 : (code == "net_30") = false := by simp [h4]
  have e5 : (code == "net_45") = false := by simp [h5]
  have e6 : (code == "cod") = false := by simp [h6]
  have e7 : (code == "bill_to_bill") = false := by simp [h7]
  unfold compute_due_date TERM_DAYS
  rw [List.lookup, List.lookup, List.lookup, List.lookup, List.lookup, List.lookup, List.lookup,
      List.lookup]
  simp only [e1, e2, e3, e4, e5, e6, e7, if_neg h8, if_neg h9]

/-- Witness for C10 at the unrecognized code "net_60". -/
theorem compute_due_date_default_btb_witness :
    "net_60" ∉ ["net_7", "net_15", "net_20", "net_30", "net_45", "cod", "bill_to_bill",
                "week_to_week", "month_to_month"] ∧
    compute_due_date ⟨2024, 1, 1⟩ "net_60" = addDays ⟨2024, 1, 1⟩ 30 :=
  ⟨by decide, (compute_due_date_default_btb ⟨2024, 1, 1⟩ "net_60" (by decide)).1⟩

/-- One invoice row after resolution to a recipient, as consumed by
`compute_overdue_report` (src/app.py lines 1529-1591): monetary floats as
rationals, the ship date as a day ordinal, and the location bucket the row
was assigned to. -/
structure InvoiceRow where
  order_id : String
  ship : Nat
  amt : ℚ
  paid : ℚ
  location : String
deriving DecidableEq, Repr

/-- Python `outstanding = amt - paid` (src/app.py line 1534). -/
def outstanding (r : InvoiceRow) : ℚ := r.amt - r.paid

/-- Python `paid_amount = max(0.0, amt - max(outstanding, 0.0))` (line 1563). -/
def paid_amount (r : InvoiceRow) : ℚ := max 0 (r.amt - max (outstanding r) 0)

/-- Python `fully_paid = outstanding <= 0.01` (line 1564). -/
def FullyPaid (r : InvoiceRow) : Prop := outstanding r ≤ 1 / 100

/-- Python `short_paid = paid_amount > 0.01 and outstanding > 0.01` (line 1565). -/
def ShortPaid (r : InvoiceRow) : Prop := 1 / 100 < paid_amount r ∧ 1 / 100 < outstanding r

/-- Python `unpaid = paid_amount <= 0.01 and outstanding > 0.01` (line 1566). -/
def Unpaid (r : InvoiceRow) : Prop := paid_amount r ≤ 1 / 100 ∧ 1 / 100 < outstanding r

instance (r : InvoiceRow) : Decidable (FullyPaid r) := by unfold FullyPaid; infer_instance

instance (r : InvoiceRow) : Decidable (ShortPaid r) := by unfold ShortPaid; infer_instance

instance (r : InvoiceRow) : Decidable (Unpaid r) := by unfold Unpaid; infer_instance

/-- Rows with `amt <= 0` are discarded entirely (src/app.py line 1559). -/
def keptRows (rows : List InvoiceRow) : List InvoiceRow :=
  rows.filter (fun r => decide (0 < r.amt))

/-- Ship dates of the fully-paid invoices of one location
(`paid_dates`, src/app.py line 1656). -/
def paidDates (invs : List InvoiceRow) : List Nat :=
  (invs.filter (fun r => decide (FullyPaid r))).map (fun r => r.ship)

/-- Skipped-invoice computation for the invoices of one location
(src/app.py lines 1655-1668): if no fully-paid invoice exists the location
contributes nothing; otherwise every unpaid invoice shipped strictly before
`max(paid_dates)` is reported. -/
def skippedAt (invs : List InvoiceRow) : List InvoiceRow :=
  match (paidDates invs).max? with
  | none => []
  | some maxPaid => invs.filter (fun r => decide (Unpaid r) && decide (r.ship < maxPaid))

/-- C9: within one location, an invoice appears in the skipped list iff it is
an unpaid invoice of that location whose ship date is strictly earlier than
the ship date of some fully-paid invoice of the same location (equivalently,
earlier than the latest fully-paid ship date); no other invoice appears. -/
theorem skippedAt_iff (invs : List InvoiceRow) (inv : InvoiceRow) :
    inv ∈ skippedAt invs ↔
      inv ∈ invs ∧ Unpaid inv ∧ ∃ p ∈ invs, FullyPaid p ∧ inv.ship < p.ship := by
  unfold skippedAt
  cases hmax : (paidDates invs).max? with
  | none =>
    have hempty : paidDates invs = [] := by
      cases hpd : paidDates invs with
      | nil => rfl
      | cons x xs => rw [hpd] at hmax; simp [List.max?] at hmax
    simp only [List.not_mem_nil, false_iff, not_and]
    intro _ _
    rintro ⟨p, hp, hfp, _⟩
    have : p.ship ∈ paidDates invs := by
      unfold paidDates
      exact List.mem_map_of_mem _ (List.mem_filter.mpr ⟨hp, by simpa using hfp⟩)
    rw [hempty] at this
    exact absurd this (List.not_mem_nil _)
  | some maxPaid =>
    have hiff := @List.max?_eq_some_iff Nat maxPaid _ _ _
      (fun a => Nat.le_refl a) (fun a b => max_choice a b)
      (fun a b c => Nat.max_le) (paidDates invs)
    obtain ⟨hmem, hub⟩ := hiff.mp hmax
    rw [List.mem_filter]
    simp only [Bool.and_eq_true, decide_eq_true_eq]
    constructor
    · rintro ⟨hin, hu, hlt⟩
      refine ⟨hin, hu, ?_⟩
      unfold paidDates at hmem
      simp only [List.mem_map, List.mem_filter, decide_eq_true_eq] at hmem
      obtain ⟨p, ⟨hp, hfp⟩, hps⟩ := hmem
      exact ⟨p, hp, hfp, by omega⟩
    · rintro ⟨hin, hu, p, hp, hfp, hlt⟩
      refine ⟨hin, hu, ?_⟩
      have : p.ship ∈ paidDates invs := by
        unfold paidDates
        exact List.mem_map_of_mem _ (List.mem_filter.mpr ⟨hp, by simpa using hfp⟩)
      have := hub _ this
      omega

/-- One entry of the bill_to_bill `items` list: ship date and outstanding
amount of a row kept for overdue computation (src/app.py lines 1585-1591). -/
structure BtbItem where
  ship : Nat
  outstanding : ℚ
deriving DecidableEq, Repr

/-- The flat per-recipient `items` list that the bill_to_bill branch of
`compute_overdue_report` chains over: rows with `amt > 0` and
`outstanding > 0`, from every location of the recipient, in row order
(src/app.py lines 1559, 1582-1591 — the location is dropped). -/
def overdueSourceItems (rows : List InvoiceRow) : List BtbItem :=
  ((keptRows rows).filter (fun r => decide (0 < outstanding r))).map
    (fun r => ⟨r.ship, outstanding r⟩)

/-- Ship-date order used by `sorted(items, key=lambda i: i["ship_date"])`. -/
def shipLE (a b : BtbItem) : Prop := a.ship ≤ b.ship

instance : DecidableRel shipLE := fun a b => Nat.decLe a.ship b.ship

instance : IsTotal BtbItem shipLE := ⟨fun a b => Nat.le_total a.ship b.ship⟩

instance : IsTrans BtbItem shipLE := ⟨fun _ _ _ => Nat.le_trans⟩

/-- Python's stable `sorted` by ship date. -/
def sortByShip (l : List BtbItem) : List BtbItem := l.insertionSort shipLE

/-- The due-date chaining of the bill_to_bill branch (src/app.py lines
1599-1615 and identically 2103-2111): on the sorted item list, each item's
due date is the next item's ship date, and the last item's due date is its
own ship date + 15 days. Produces (ship, due, outstanding) triples. -/
def btbChain : List BtbItem → List (Nat × Nat × ℚ)
  | [] => []
  | [a] => [(a.ship, a.ship + 15, a.outstanding)]
  | a :: b :: rest => (a.ship, b.ship, a.outstanding) :: btbChain (b :: rest)

/-- Due date assigned by the source to each (pooled, sorted) invoice of a
bill_to_bill recipient, as (ship, due) pairs. -/
def btbDueDates (rows : List InvoiceRow) : List (Nat × Nat) :=
  (btbChain (sortByShip (overdueSourceItems rows))).map (fun t => (t.1, t.2.1))

/-- Modelled from the claim's words for comparison (per-location chaining):
chain the due dates within each location separately, in first-appearance
order of the locations. This is what claim C5 asserts the aggregator does. -/
def btbDueDatesPerLocation (rows : List InvoiceRow) : List (Nat × Nat) :=
  (((keptRows rows).map (fun r => r.location)).dedup).flatMap
    (fun loc => btbDueDates (rows.filter (fun r => r.location == loc)))

theorem btbChain_length (s : List BtbItem) : (btbChain s).length = s.length := by
  induction s with
  | nil => rfl
  | cons a t ih =>
    cases t with
    | nil => rfl
    | cons b rest =>
      show ((a.ship, b.ship, a.outstanding) :: btbChain (b :: rest)).length = _
      simp only [List.length_cons] at ih ⊢
      omega

theorem btbChain_get (s : List BtbItem) (i : Nat) (a b : BtbItem)
    (ha : s[i]? = some a) (hb : s[i + 1]? = some b) :
    (btbChain s)[i]? = some (a.ship, b.ship, a.outstanding) := by
  induction s generalizing i with
  | nil => simp at ha
  | cons x t ih =>
    cases t with
    | nil =>
      have : i + 1 < 1 := (List.getElem?_eq_some_iff.mp hb).1
      omega
    | cons y rest =>
      cases i with
      | zero =>
        rw [List.getElem?_cons_zero, Option.some_inj] at ha
        rw [List.getElem?_cons_succ, List.getElem?_cons_zero, Option.some_inj] at hb
        subst ha
        subst hb
        show ((x.ship, y.ship, x.outstanding) :: btbChain (y :: rest))[0]? = _
        rw [List.getElem?_cons_zero]
      | succ j =>
        rw [List.getElem?_cons_succ] at ha
        rw [List.getElem?_cons_succ] at hb
        show ((x.ship, y.ship, x.outstanding) :: btbChain (y :: rest))[j + 1]? = _
        rw [List.getElem?_cons_succ]
        exact ih j ha hb

theorem btbChain_getLast (s : List BtbItem) (a : BtbItem) (ha : s.getLast? = some a) :
    (btbChain s).getLast? = some (a.ship, a.ship + 15, a.outstanding) := by
  induction s with
  | nil => simp at ha
  | cons x t ih =>
    cases t with
    | nil =>
      simp only [List.getLast?_singleton, Option.some.injEq] at ha
      subst ha
      rfl
    | cons y rest =>
      have hlast : (y :: rest).getLast? = some a := by
        rw [List.getLast?_cons_cons] at ha
        exact ha
      have := ih hlast
      show ((x.ship, y.ship, x.outstanding) :: btbChain (y :: rest)).getLast? = _
      have hne : btbChain (y :: rest) ≠ [] := by
        intro hcon
        have := btbChain_length (y :: rest)
        rw [hcon] at this
        simp at this
      cases hc : btbChain (y :: rest) with
      | nil => exact absurd hc hne
      | cons c cs =>
        rw [List.getLast?_cons_cons]
        rw [hc] at this
        exact this

/-- C5 (amended): for a bill_to_bill recipient the due-date chaining is
computed over the recipient's outstanding invoices from all of its locations
pooled together (not per location): with the pooled items sorted ascending by
ship date as [d1…dn], the assigned due date of di is d(i+1) for i < n and
dn + 15 days for the last item. -/
theorem btb_chain_assignment (rows : List InvoiceRow) :
    (sortByShip (overdueSourceItems rows)).Sorted shipLE ∧
    (∀ i a b, (sortByShip (overdueSourceItems rows))[i]? = some a →
       (sortByShip (overdueSourceItems rows))[i + 1]? = some b →
       (btbChain (sortByShip (overdueSourceItems rows)))[i]? =
         some (a.ship, b.ship, a.outstanding)) ∧
    (∀ a, (sortByShip (overdueSourceItems rows)).getLast? = some a →
       (btbChain (sortByShip (overdueSourceItems rows))).getLast? =
         some (a.ship, a.ship + 15, a.outstanding)) := by
  refine ⟨List.sorted_insertionSort shipLE _, ?_, ?_⟩
  · exact fun i a b ha hb => btbChain_get _ i a b ha hb
  · exact fun a ha => btbChain_getLast _ a ha

/-- Concrete two-location bill_to_bill recipient used in the C5 witness and
to refute the per-location reading of the chaining. -/
def crossLocRows : List InvoiceRow :=
  [⟨"1001", 100, 50, 0, "Loc A"⟩, ⟨"1002", 110, 50, 0, "Loc B"⟩]

/-- Witness for C5 (amended) on a concrete two-invoice recipient. -/
theorem btb_chain_assignment_witness :
    (sortByShip (overdueSourceItems crossLocRows))[0]? = some ⟨100, 50⟩ ∧
    (btbChain (sortByShip (overdueSourceItems crossLocRows)))[0]? = some (100, 110, 50) :=
  ⟨by norm_num [overdueSourceItems, keptRows, crossLocRows, outstanding, sortByShip,
      List.insertionSort, List.orderedInsert, shipLE],
   (btb_chain_assignment crossLocRows).2.1 0 ⟨100, 50⟩ ⟨110, 50⟩
     (by norm_num [overdueSourceItems, keptRows, crossLocRows, outstanding, sortByShip,
        List.insertionSort, List.orderedInsert, shipLE])
     (by norm_num [overdueSourceItems, keptRows, crossLocRows, outstanding, sortByShip,
        List.insertionSort, List.orderedInsert, shipLE])⟩

/-- C5 counterexample: with one outstanding invoice at each of two locations
the source assigns the first location's invoice the second location's ship
date as due date (chaining across locations); the per-location chaining the
claim describes would assign ship + 15 instead. -/
theorem btb_cross_location_counterexample :
    btbDueDates crossLocRows = [(100, 110), (110, 125)] ∧
    btbDueDatesPerLocation crossLocRows = [(100, 115), (110, 125)] ∧
    btbDueDates crossLocRows ≠ btbDueDatesPerLocation crossLocRows := by
  refine ⟨?_, ?_, ?_⟩
  · norm_num [btbDueDates, overdueSourceItems, keptRows, crossLocRows, outstanding, sortByShip,
      List.insertionSort, List.orderedInsert, btbChain, shipLE]
  · rw [btbDueDatesPerLocation, show ((keptRows crossLocRows).map (fun r => r.location)).dedup
        = ["Loc A", "Loc B"] from by norm_num [keptRows, crossLocRows, List.dedup]; decide]
    norm_num [btbDueDates, overdueSourceItems, keptRows, crossLocRows, outstanding, sortByShip,
      List.insertionSort, List.orderedInsert, btbChain, shipLE, List.flatMap]
  · rw [show btbDueDates crossLocRows = [(100, 110), (110, 125)] from by
        norm_num [btbDueDates, overdueSourceItems, keptRows, crossLocRows, outstanding,
          sortByShip, List.insertionSort, List.orderedInsert, btbChain, shipLE]]
    rw [btbDueDatesPerLocation, show ((keptRows crossLocRows).map (fun r => r.location)).dedup
        = ["Loc A", "Loc B"] from by norm_num [keptRows, crossLocRows, List.dedup]; decide]
    norm_num [btbDueDates, overdueSourceItems, keptRows, crossLocRows, outstanding, sortByShip,
      List.insertionSort, List.orderedInsert, btbChain, shipLE, List.flatMap]

/-- Status of a scheduled_jobs row. -/
inductive JobStatus
  | queued
  | running
  | completed
  | failed
deriving DecidableEq, Repr

/-- One scheduled_jobs row, abstracted to the fields the queue logic reads:
the status, and whether its heartbeat is currently stale
(`last_heartbeat IS NULL OR last_heartbeat < cutoff` in the reclaim UPDATE). -/
structure JobRow where
  status : JobStatus
  stale : Bool
deriving DecidableEq, Repr

/-- One scheduled_job_items row as inserted by `create_scheduled_job`. -/
structure ItemRow where
  job_id : Nat
  recipient_id : Nat
  recipient_name : String
  status : String
deriving DecidableEq, Repr

/-- The persistent job store: scheduled_jobs and scheduled_job_items rows in
creation (autoincrement id = created_at) order. -/
structure JobStore where
  jobs : List JobRow
  items : List ItemRow
deriving DecidableEq, Repr

/-- Whether a job counts against the at-most-one-active invariant
(`status IN ('queued', 'running')`). -/
def isActive (j : JobRow) : Bool := j.status == .queued || j.status == .running

/-- Number of jobs with status queued or running. -/
def activeCount (jobs : List JobRow) : Nat := jobs.countP isActive

/-- Result of `create_scheduled_job`: the new job id, or one of the two
no-job messages of the source. -/
inductive CreateResult
  | created (job_id : Nat)
  | noDue
  | alreadyActive
deriving DecidableEq, Repr

/-- The optional truncation of the due list to `scheduled_max_recipients`
(src/app.py lines 2438-2440). -/
def truncateDue (due : List (Nat × String)) (max_recipients : Nat) :
    List (Nat × String) :=
  if 0 < max_recipients then due.take max_recipients else due

/-- Embedding of `create_scheduled_job` (src/app.py lines 2434-2470): `due`
is `get_due_recipients` as (id, group_name) pairs, `max_recipients` the
`scheduled_max_recipients` setting. The empty-due check precedes the
active-job check; on success one queued job row and one pending item row per
due recipient are appended. -/
def create_scheduled_job (due : List (Nat × String)) (max_recipients : Nat)
    (store : JobStore) : JobStore × CreateResult :=
  let due' := truncateDue due max_recipients
  if due'.isEmpty then (store, .noDue)
  else if store.jobs.any isActive then (store, .alreadyActive)
  else
    let job_id := store.jobs.length
    ({ jobs := store.jobs ++ [⟨.queued, false⟩],
       items := store.items ++ due'.map (fun r => ⟨job_id, r.1, r.2, "pending"⟩) },
     .created job_id)

/-- The stale-job reclaim UPDATE of `claim_next_scheduled_job` (src/app.py
lines 2480-2484): every running job with a stale heartbeat is reset to
queued (the heartbeat itself is not touched). -/
def reclaimStale (jobs : List JobRow) : List JobRow :=
  jobs.map (fun j => if j.status == .running && j.stale then ⟨.queued, j.stale⟩ else j)

/-- Embedding of `claim_next_scheduled_job` (src/app.py lines 2473-2504):
after the stale reclaim, the oldest queued job is transitioned to running by
a conditional UPDATE that also refreshes the heartbeat. -/
def claim_next_scheduled_job (jobs : List JobRow) : List JobRow × Option Nat :=
  let j1 := reclaimStale jobs
  match j1.findIdx? (fun j => j.status == .queued) with
  | none => (j1, none)
  | some i => (j1.set i ⟨.running, false⟩, some i)

/-- Embedding of `mark_scheduled_job_failed` (src/app.py lines 2507-2515):
the job row is set to failed with a fresh heartbeat. -/
def mark_scheduled_job_failed (jobs : List JobRow) (job_id : Nat) : List JobRow :=
  jobs.set job_id ⟨.failed, false⟩

/-- The completion UPDATE at the end of `process_scheduled_job` (src/app.py
lines 2684-2689): the job row is set to completed with a fresh heartbeat. -/
def mark_scheduled_job_completed (jobs : List JobRow) (job_id : Nat) : List JobRow :=
  jobs.set job_id ⟨.completed, false⟩

/-- In-place update of one job row, used for the heartbeat effects. -/
def modifyJob (jobs : List JobRow) (i : Nat) (f : JobRow → JobRow) : List JobRow :=
  match jobs, i with
  | [], _ => []
  | j :: rest, 0 => f j :: rest
  | j :: rest, n + 1 => j :: modifyJob rest n f

/-- The heartbeat UPDATE issued while processing a job (src/app.py lines
2591-2594 and the per-item counter UPDATE): status unchanged, heartbeat
fresh. -/
def touchJob (jobs : List JobRow) (i : Nat) : List JobRow :=
  modifyJob jobs i (fun j => ⟨j.status, false⟩)

/-- Environment step: time passes and a heartbeat crosses the staleness
window; no status changes. -/
def ageJob (jobs : List JobRow) (i : Nat) : List JobRow :=
  modifyJob jobs i (fun j => ⟨j.status, true⟩)

/-- Job lists reachable from the empty scheduled_jobs table through the
operations of the source that create or transition jobs, plus heartbeat
effects. -/
inductive ReachableJobs : List JobRow → Prop
  | empty : ReachableJobs []
  | create (due : List (Nat × String)) (maxR : Nat) (items : List ItemRow)
      (jobs : List JobRow) : ReachableJobs jobs →
      ReachableJobs (create_scheduled_job due maxR ⟨jobs, items⟩).1.jobs
  | claim (jobs : List JobRow) : ReachableJobs jobs →
      ReachableJobs (claim_next_scheduled_job jobs).1
  | markFailed (jobs : List JobRow) (i : Nat) : ReachableJobs jobs →
      ReachableJobs (mark_scheduled_job_failed jobs i)
  | complete (jobs : List JobRow) (i : Nat) : ReachableJobs jobs →
      ReachableJobs (mark_scheduled_job_completed jobs i)
  | heartbeat (jobs : List JobRow) (i : Nat) : ReachableJobs jobs →
      ReachableJobs (touchJob jobs i)
  | age (jobs : List JobRow) (i : Nat) : ReachableJobs jobs →
      ReachableJobs (ageJob jobs i)

theorem countP_set_le (p : JobRow → Bool) (l : List JobRow) (i : Nat) (j : JobRow)
    (h : p j = true → ∀ a, l[i]? = some a → p a = true) :
    (l.set i j).countP p ≤ l.countP p := by
  induction l generalizing i with
  | nil => simp [List.set]
  | cons x rest ih =>
    cases i with
    | zero =>
      simp only [List.set, List.countP_cons]
      by_cases hpj : p j = true
      · have hx := h hpj x (by simp)
        simp [hpj, hx]
      · simp only [Bool.not_eq_true] at hpj
        simp only [hpj]
        have hz : (if false = true then 1 else 0) = 0 := rfl
        omega
    | succ n =>
      simp only [List.set, List.countP_cons]
      have := ih n (fun hpj a ha => h hpj a (by simpa using ha))
      omega

theorem countP_modifyJob (p : JobRow → Bool) (l : List JobRow) (i : Nat)
    (f : JobRow → JobRow) (h : ∀ a, p (f a) = p a) :
    (modifyJob l i f).countP p = l.countP p := by
  induction l generalizing i with
  | nil => rfl
  | cons x rest ih =>
    cases i with
    | zero => simp [modifyJob, List.countP_cons, h]
    | succ n => simp [modifyJob, List.countP_cons, ih]

theorem activeCount_reclaimStale (jobs : List JobRow) :
    activeCount (reclaimStale jobs) = activeCount jobs := by
  unfold activeCount reclaimStale
  rw [List.countP_map]
  apply List.countP_congr
  intro j _
  by_cases hr : j.status == .running && j.stale
  · simp only [Function.comp, hr, if_pos rfl]
    simp only [Bool.and_eq_true, beq_iff_eq] at hr
    simp [isActive, hr.1]
  · simp only [Function.comp]
    rw [if_neg (by simpa using hr)]

theorem activeCount_claim_le (jobs : List JobRow) :
    activeCount (claim_next_scheduled_job jobs).1 ≤ activeCount jobs := by
  unfold claim_next_scheduled_job
  dsimp only
  cases hidx : (reclaimStale jobs).findIdx? (fun j => j.status == .queued) with
  | none =>
    dsimp only
    rw [activeCount_reclaimStale]
  | some i =>
    dsimp only
    calc activeCount ((reclaimStale jobs).set i ⟨.running, false⟩)
        ≤ activeCount (reclaimStale jobs) := by
          apply countP_set_le
          intro _ a ha
          obtain ⟨hlt, hp, _⟩ := List.findIdx?_eq_some_iff_getElem.mp hidx
          obtain ⟨hl, hval⟩ := List.getElem?_eq_some_iff.mp ha
          rw [hval] at hp
          have hq : a.status = .queued := by simpa using hp
          simp [isActive, hq]
      _ = activeCount jobs := activeCount_reclaimStale jobs

/-- C1: at every store reachable from the empty table through the job
operations of the source (creation, claiming with stale reclaim, failure
marking, completion, heartbeat updates), at most one job has status queued
or running. -/
theorem jobs_at_most_one_active (jobs : List JobRow) (h : ReachableJobs jobs) :
    activeCount jobs ≤ 1 := by
  induction h with
  | empty => simp [activeCount]
  | create due maxR items jobs _ ih =>
    unfold create_scheduled_job
    dsimp only
    split
    · exact ih
    · split
      · exact ih
      · rename_i hnoact
        dsimp only
        unfold activeCount at *
        rw [List.countP_append]
        have hzero : jobs.countP isActive = 0 := by
          rw [List.countP_eq_zero]
          intro a ha
          by_contra hact
          exact hnoact (List.any_eq_true.mpr ⟨a, ha, by simpa using hact⟩)
        simp [hzero, List.countP_cons, isActive]
  | claim jobs _ ih => exact le_trans (activeCount_claim_le jobs) ih
  | markFailed jobs i _ ih =>
    refine le_trans ?_ ih
    unfold mark_scheduled_job_failed activeCount
    exact countP_set_le _ _ _ _ (by intro hpj; simp [isActive] at hpj)
  | complete jobs i _ ih =>
    refine le_trans ?_ ih
    unfold mark_scheduled_job_completed activeCount
    exact countP_set_le _ _ _ _ (by intro hpj; simp [isActive] at hpj)
  | heartbeat jobs i _ ih =>
    refine le_of_eq_of_le ?_ ih
    unfold touchJob activeCount
    exact countP_modifyJob _ _ _ _ (by intro a; simp [isActive])
  | age jobs i _ ih =>
    refine le_of_eq_of_le ?_ ih
    unfold ageJob activeCount
    exact countP_modifyJob _ _ _ _ (by intro a; simp [isActive])

/-- Witness for C1: a concrete reachable store (create, then claim). -/
theorem jobs_at_most_one_active_witness :
    ReachableJobs (claim_next_scheduled_job
      (create_scheduled_job [(1, "Acme")] 0 ⟨[], []⟩).1.jobs).1 ∧
    activeCount (claim_next_scheduled_job
      (create_scheduled_job [(1, "Acme")] 0 ⟨[], []⟩).1.jobs).1 ≤ 1 :=
  have hreach : ReachableJobs (claim_next_scheduled_job
      (create_scheduled_job [(1, "Acme")] 0 ⟨[], []⟩).1.jobs).1 :=
    ReachableJobs.claim _ (ReachableJobs.create [(1, "Acme")] 0 [] [] ReachableJobs.empty)
  ⟨hreach, jobs_at_most_one_active _ hreach⟩

/-- C2 counterexample: a call made while a job is queued, with an empty due
set, returns the "nothing due" result — the active-job check is not the
first check and the "job already active" result is not returned. -/
theorem create_scheduled_job_empty_due_counterexample :
    (create_scheduled_job [] 0 ⟨[⟨.queued, false⟩], []⟩).2 = .noDue ∧
    (create_scheduled_job [] 0 ⟨[⟨.queued, false⟩], []⟩).2 ≠ .alreadyActive := by
  decide

/-- C2 (amended): a call made while a job with status queued or running
exists creates nothing — the store is returned unchanged, so no ScheduledJob
row and no ScheduledJobItem rows are added; it returns the "job already
active" result when the (optionally truncated) due set is non-empty, and the
"nothing due" result when that set is empty. -/
theorem create_scheduled_job_already_active (due : List (Nat × String))
    (max_recipients : Nat) (store : JobStore)
    (hactive : store.jobs.any isActive = true) :
    (create_scheduled_job due max_recipients store).1 = store ∧
    (create_scheduled_job due max_recipients store).2 =
      (if (truncateDue due max_recipients).isEmpty
       then CreateResult.noDue else CreateResult.alreadyActive) := by
  unfold create_scheduled_job
  dsimp only
  rw [if_pos hactive]
  split
  · exact ⟨rfl, rfl⟩
  · exact ⟨rfl, rfl⟩

/-- Witness for C2 (amended): non-empty due set, one running job. -/
theorem create_scheduled_job_already_active_witness :
    (JobStore.mk [⟨.running, false⟩] []).jobs.any isActive = true ∧
    (create_scheduled_job [(1, "Acme")] 0 ⟨[⟨.running, false⟩], []⟩).1 =
      ⟨[⟨.running, false⟩], []⟩ ∧
    (create_scheduled_job [(1, "Acme")] 0 ⟨[⟨.running, false⟩], []⟩).2 =
      CreateResult.alreadyActive :=
  ⟨by decide,
   (create_scheduled_job_already_active [(1, "Acme")] 0 ⟨[⟨.running, false⟩], []⟩ (by decide)).1,
   by
    have := (create_scheduled_job_already_active [(1, "Acme")] 0
      ⟨[⟨.running, false⟩], []⟩ (by decide)).2
    rw [this]
    decide⟩

/-- Python's `str.lower()` on the (ASCII) error messages involved, modelled
over the string's character list. -/
def lowerString (s : String) : String := ⟨s.data.map Char.toLower⟩

/-- SQL `TRIM` / Python strip: leading and trailing whitespace removed. -/
def trimString (s : String) : String :=
  ⟨((s.data.dropWhile Char.isWhitespace).reverse.dropWhile Char.isWhitespace).reverse⟩

/-- The retryable-error token list of `is_retryable_send_error`
(src/app.py lines 2520-2536). -/
def RETRY_TOKENS : List String :=
  ["timed out", "timeout", "temporarily unavailable", "temporary",
   "connection unexpectedly closed", "connection reset", "server disconnected",
   "service not available", "try again", "smtpserverdisconnected",
   "421", "450", "451", "452", "454"]

/-- Python `token in text`: `token` occurs as a contiguous substring. -/
def subOccurs : List Char → List Char → Bool
  | [], token => token.isEmpty
  | c :: rest, token => token.isPrefixOf (c :: rest) || subOccurs rest token

/-- Embedding of `is_retryable_send_error` (src/app.py lines 2518-2537). -/
def is_retryable_send_error (message : String) : Bool :=
  let text := lowerString message
  RETRY_TOKENS.any (fun token => subOccurs text.data token.data)

/-- One attempt-loop execution for a scheduled job item, embedding the while
loop of `process_scheduled_job` (src/app.py lines 2577-2636).
`recipient_exists` models the recipients re-fetch (line 2597),
`prior_sent_run` the idempotent-resume query on statement_runs for this
recipient with run_type scheduled, status sent, created_at at or after the
job creation and a matching invoice reference (lines 2604-2618), and
`send n` the (status, detail) pair that `run_for_recipient` returns on the
n-th attempt (status ∈ {"sent", "skipped", "error"}). The fuel argument
only bounds recursion (the caller passes `max_attempts - attempts`, which
the loop maintains); the loop condition `attempts < max_attempts` is what
terminates. Returns (final_status, detail, attempts). -/
def itemLoopFuel (recipient_exists : Bool) (prior_sent_run : Bool)
    (send : Nat → String × String) (max_attempts : Nat) :
    Nat → Nat → String × String × Nat
  | 0, attempts => ("failed", "Unknown failure", attempts)
  | fuel + 1, attempts =>
    if attempts < max_attempts then
      let a := attempts + 1
      if !recipient_exists then ("failed", "Recipient not found", a)
      else if prior_sent_run then ("sent", "Recovered previous sent state", a)
      else
        let r := send a
        if r.1 == "error" && decide (a < max_attempts) && is_retryable_send_error r.2 then
          itemLoopFuel recipient_exists prior_sent_run send max_attempts fuel a
        else
          ((if r.1 == "error" then "failed" else r.1), r.2, a)
    else ("failed", "Unknown failure", attempts)

/-- Processing of one job item starting at a given attempts counter. -/
def processItem (recipient_exists prior_sent_run : Bool)
    (send : Nat → String × String) (max_attempts attempts : Nat) :
    String × String × Nat :=
  itemLoopFuel recipient_exists prior_sent_run send max_attempts
    (max_attempts - attempts) attempts

/-- C3 counterexample: an item whose recipient row no longer exists is
finalized failed ("Recipient not found") even though a matching sent
StatementRun exists — the claim's unconditional "finalized with status
sent" fails at this input. -/
theorem prior_run_without_recipient_counterexample :
    (processItem false true (fun _ => ("sent", "out.pdf")) 3 0).1 = "failed" ∧
    (processItem false true (fun _ => ("sent", "out.pdf")) 3 0).1 ≠ "sent" := by
  decide

/-- C3 (amended): if the recipient still exists, a matching sent StatementRun
exists, and the item has attempts left, it is finalized sent with detail
"Recovered previous sent state" on the next attempt, and the outcome is
independent of the Statement Builder (`run_for_recipient` is not invoked:
any two send oracles give the same result). If the recipient row is gone the
item is finalized failed even when the matching run exists. -/
theorem processItem_resume (send send' : Nat → String × String)
    (max_attempts attempts : Nat) (h : attempts < max_attempts) :
    processItem true true send max_attempts attempts =
      ("sent", "Recovered previous sent state", attempts + 1) ∧
    processItem true true send max_attempts attempts =
      processItem true true send' max_attempts attempts ∧
    (processItem false true send max_attempts attempts).1 = "failed" := by
  obtain ⟨f, hf⟩ : ∃ f, max_attempts - attempts = f + 1 :=
    ⟨max_attempts - attempts - 1, by omega⟩
  have hrun : ∀ s : Nat → String × String,
      processItem true true s max_attempts attempts =
        ("sent", "Recovered previous sent state", attempts + 1) := by
    intro s
    unfold processItem
    rw [hf]
    unfold itemLoopFuel
    rw [if_pos h]
    rfl
  have hfail : (processItem false true send max_attempts attempts).1 = "failed" := by
    unfold processItem
    rw [hf]
    unfold itemLoopFuel
    rw [if_pos h]
    rfl
  exact ⟨hrun send, (hrun send).trans (hrun send').symm, hfail⟩

/-- Witness for C3 (amended) at concrete inputs. -/
theorem processItem_resume_witness :
    (0 : Nat) < 3 ∧
    processItem true true (fun _ => ("error", "boom")) 3 0 =
      ("sent", "Recovered previous sent state", 1) :=
  ⟨by decide,
   (processItem_resume (fun _ => ("error", "boom")) (fun _ => ("error", "boom")) 3 0
     (by decide)).1⟩

theorem itemLoop_all_retryable (send : Nat → String × String) (max_attempts : Nat)
    (hall : ∀ n, 1 ≤ n → n ≤ max_attempts →
      (send n).1 = "error" ∧ is_retryable_send_error (send n).2 = true) :
    ∀ fuel attempts, max_attempts - attempts = fuel → attempts < max_attempts →
      itemLoopFuel true false send max_attempts fuel attempts =
        ("failed", (send max_attempts).2, max_attempts) := by
  intro fuel
  induction fuel with
  | zero => intro attempts h0 hlt; omega
  | succ f ih =>
    intro attempts hf hlt
    obtain ⟨herr, hretry⟩ := hall (attempts + 1) (by omega) (by omega)
    unfold itemLoopFuel
    rw [if_pos hlt]
    dsimp only [Bool.not_true, Bool.false_eq_true, if_false, if_neg]
    rw [if_neg (by simp)]
    rw [if_neg (by simp)]
    by_cases hmore : attempts + 1 < max_attempts
    · rw [if_pos (by simp [herr, hretry, hmore])]
      exact ih (attempts + 1) (by omega) hmore
    · have hlast : attempts + 1 = max_attempts := by omega
      rw [if_neg (by simp [hmore])]
      rw [if_pos (by simp [herr])]
      rw [hlast]

/-- C4: for an item starting at attempts = 0 with maxAttempts = retries + 1:
if every dispatch attempt returns an error matching the retryable-error
heuristic, the item is attempted exactly retries + 1 times and finalized
failed (with the last error as detail); if the first attempt returns a
non-retryable error, the item is finalized failed after exactly one
attempt. -/
theorem processItem_retry_bound (retries : Nat) (send : Nat → String × String) :
    ((∀ n, 1 ≤ n → n ≤ retries + 1 →
        (send n).1 = "error" ∧ is_retryable_send_error (send n).2 = true) →
      processItem true false send (retries + 1) 0 =
        ("failed", (send (retries + 1)).2, retries + 1)) ∧
    ((send 1).1 = "error" → is_retryable_send_error (send 1).2 = false →
      processItem true false send (retries + 1) 0 = ("failed", (send 1).2, 1)) := by
  constructor
  · intro hall
    unfold processItem
    exact itemLoop_all_retryable send (retries + 1) hall (retries + 1 - 0) 0 rfl (by omega)
  · intro herr hnoretry
    unfold processItem
    have hf : retries + 1 - 0 = retries + 1 := rfl
    rw [hf]
    unfold itemLoopFuel
    rw [if_pos (by omega)]
    dsimp only [Bool.not_true, Bool.false_eq_true, if_false, if_neg]
    rw [if_neg (by simp)]
    rw [if_neg (by simp)]
    rw [if_neg (by simp [hnoretry])]
    rw [if_pos (by simp [herr])]

/-- Witness for C4 at a concrete always-retryable error and retries = 2. -/
theorem processItem_retry_bound_witness :
    is_retryable_send_error "connection reset by peer" = true ∧
    processItem true false (fun _ => ("error", "connection reset by peer")) 3 0 =
      ("failed", "connection reset by peer", 3) :=
  ⟨by decide,
   (processItem_retry_bound 2 (fun _ => ("error", "connection reset by peer"))).1
     (fun n _ _ => ⟨rfl, by decide⟩)⟩

/-- One scheduled_job_items row as the worker reads and writes it. -/
structure JobItem where
  recipient_id : Nat
  recipient_name : String
  status : String
  attempts : Nat
  error : String
deriving DecidableEq, Repr

/-- Item selection of the worker: `status IN ('pending', 'running')`
(src/app.py lines 2565-2569). -/
def shouldProcess (it : JobItem) : Bool :=
  it.status == "pending" || it.status == "running"

/-- Per-item effect of the worker loop body on one selected item. -/
def processOneItem (recipient_of prior_of : Nat → Bool)
    (send_of : Nat → Nat → String × String) (max_attempts : Nat)
    (it : JobItem) : JobItem :=
  let r := processItem (recipient_of it.recipient_id) (prior_of it.recipient_id)
    (send_of it.recipient_id) max_attempts it.attempts
  ⟨it.recipient_id, it.recipient_name, r.1, r.2.2, r.2.1⟩

/-- The failure-sample query for the job summary (src/app.py lines 2672-2678):
errors of this job's failed items with non-blank error text, latest id
first, at most three. -/
def failedSamples (items : List JobItem) : List String :=
  (((items.filter (fun it => it.status == "failed" && trimString it.error != "")).map
      (fun it => it.error)).reverse).take 3

/-- The summary error recorded on completion (src/app.py lines 2670-2682). -/
def summaryError (failed_count : Nat) (items : List JobItem) : String :=
  if 0 < failed_count then
    let samples := failedSamples items
    if samples.isEmpty then toString failed_count ++ " recipient(s) failed."
    else String.intercalate "; " samples
  else ""

/-- Job-level outcome of `process_scheduled_job`. -/
structure JobOutcome where
  job_status : String
  error : String
  items : List JobItem
  processed : Nat
  sent : Nat
  skipped : Nat
  failed : Nat
deriving DecidableEq, Repr

/-- Embedding of `process_scheduled_job` (src/app.py lines 2540-2690) at job
level. `snapshot_ok`/`snapshot_error` model `load_invoice_df` on the job's
invoice snapshot (lines 2552-2556); the per-item environment is as in
`processItem`, looked up by recipient id; the initial counters come from the
job row (non-zero when resuming a reclaimed job). The deduplicated
missing-email list (a by-product of skipped items) is not modelled. -/
def process_scheduled_job (snapshot_ok : Bool) (snapshot_error : String)
    (recipient_of prior_of : Nat → Bool) (send_of : Nat → Nat → String × String)
    (max_attempts : Nat) (init_processed init_sent init_skipped init_failed : Nat)
    (items : List JobItem) : JobOutcome :=
  if !snapshot_ok then
    ⟨"failed", snapshot_error, items, init_processed, init_sent, init_skipped, init_failed⟩
  else
    let items' := items.map (fun it => if shouldProcess it
      then processOneItem recipient_of prior_of send_of max_attempts it else it)
    let newly := (items.filter shouldProcess).map
      (processOneItem recipient_of prior_of send_of max_attempts)
    let sent' := init_sent + newly.countP (fun it => it.status == "sent")
    let skipped' := init_skipped + newly.countP (fun it => it.status == "skipped")
    let failed' := init_failed + newly.countP
      (fun it => !(it.status == "sent") && !(it.status == "skipped"))
    let processed' := init_processed + newly.length
    ⟨"completed", summaryError failed' items', items', processed', sent', skipped', failed'⟩

theorem summaryError_cases (n : Nat) (l : List JobItem) :
    summaryError n l = "" ∨
    summaryError n l = String.intercalate "; " (failedSamples l) ∨
    summaryError n l = toString n ++ " recipient(s) failed." := by
  unfold summaryError
  dsimp only
  split
  · split
    · right; right; rfl
    · right; left; rfl
  · left; rfl

/-- C6: if the invoice snapshot cannot be loaded the job is marked failed
with every item untouched and counters unchanged; otherwise the job is
always marked completed — never failed — regardless of per-item outcomes,
and its error field is either empty, a sample of at most three item failure
messages joined by "; ", or a failure-count summary. -/
theorem process_scheduled_job_containment (serr : String)
    (recipient_of prior_of : Nat → Bool) (send_of : Nat → Nat → String × String)
    (max_attempts ip isn isk ifl : Nat) (items : List JobItem) :
    (process_scheduled_job false serr recipient_of prior_of send_of max_attempts
        ip isn isk ifl items =
      ⟨"failed", serr, items, ip, isn, isk, ifl⟩) ∧
    ((process_scheduled_job true serr recipient_of prior_of send_of max_attempts
        ip isn isk ifl items).job_status = "completed" ∧
     (process_scheduled_job true serr recipient_of prior_of send_of max_attempts
        ip isn isk ifl items).job_status ≠ "failed" ∧
     ((process_scheduled_job true serr recipient_of prior_of send_of max_attempts
        ip isn isk ifl items).error = "" ∨
      (process_scheduled_job true serr recipient_of prior_of send_of max_attempts
        ip isn isk ifl items).error =
        String.intercalate "; " (failedSamples
          (process_scheduled_job true serr recipient_of prior_of send_of max_attempts
            ip isn isk ifl items).items) ∨
      (process_scheduled_job true serr recipient_of prior_of send_of max_attempts
        ip isn isk ifl items).error =
        toString (process_scheduled_job true serr recipient_of prior_of send_of
          max_attempts ip isn isk ifl items).failed ++ " recipient(s) failed.") ∧
     ∀ l : List JobItem, (failedSamples l).length ≤ 3) := by
  refine ⟨rfl, rfl, ?_, ?_, ?_⟩
  · intro hcon
    have hc : (process_scheduled_job true serr recipient_of prior_of send_of max_attempts
        ip isn isk ifl items).job_status = "completed" := rfl
    rw [hc] at hcon
    exact absurd hcon (by decide)
  · have he : (process_scheduled_job true serr recipient_of prior_of send_of max_attempts
        ip isn isk ifl items).error =
      summaryError
        (process_scheduled_job true serr recipient_of prior_of send_of max_attempts
          ip isn isk ifl items).failed
        (process_scheduled_job true serr recipient_of prior_of send_of max_attempts
          ip isn isk ifl items).items := rfl
    rw [he]
    exact summaryError_cases _ _
  · intro l
    unfold failedSamples
    exact List.length_take_le 3 _

/-- Witness for C8 at concrete dates (today after the due date). -/
theorem compute_status_spec_witness :
    compute_status ⟨1, 1, 20⟩ ⟨1, 1, 10⟩ = "Overdue" :=
  (compute_status_spec ⟨1, 1, 20⟩ ⟨1, 1, 10⟩).1.mpr (by decide)

/-- Witness for C9: an unpaid invoice shipped before a fully-paid one at the
same location is in the skipped list. -/
theorem skippedAt_iff_witness :
    (⟨"A", 100, 50, 0, "L"⟩ : InvoiceRow) ∈
      skippedAt [⟨"A", 100, 50, 0, "L"⟩, ⟨"B", 110, 100, 100, "L"⟩] :=
  (skippedAt_iff [⟨"A", 100, 50, 0, "L"⟩, ⟨"B", 110, 100, 100, "L"⟩]
      ⟨"A", 100, 50, 0, "L"⟩).mpr
    ⟨by decide,
     by norm_num [Unpaid, paid_amount, outstanding],
     ⟨"B", 110, 100, 100, "L"⟩, by decide,
     by norm_num [FullyPaid, outstanding], by decide⟩

/-- Witness for C6 at concrete inputs (snapshot load failure). -/
theorem process_scheduled_job_containment_witness :
    process_scheduled_job false "boom" (fun _ => true) (fun _ => false)
      (fun _ _ => ("sent", "p")) 3 0 0 0 0 [] = ⟨"failed", "boom", [], 0, 0, 0, 0⟩ :=
  (process_scheduled_job_containment "boom" (fun _ => true) (fun _ => false)
      (fun _ _ => ("sent", "p")) 3 0 0 0 0 []).1

end StatementOps
